import Mathlib

/-!
Verification development for the stock-quant repository's core: per-market
trading-commission models (HK / CN / US), trade and asset record bookkeeping,
and the strategy order-notification lifecycle.

Money amounts and prices are modelled as rationals (`ℚ`); the source computes
in Python floats, but every parameter is an exact decimal and the spec's
arithmetic contracts are stated over exact decimal arithmetic.

The `settings` module is absent from the sources, so every `hasattr(settings,
...)` guard in the source falls through to its inline default; all parameter
records below therefore carry those default values.
-/

set_option autoImplicit false

namespace StockQuant

/-! ### Dates and timestamps

`src/core/strategy/trading/common.py` and `src/core/strategy/indicator/common.py`
validate a `date` argument by exact runtime type: `type(date) is datetime.date`
accepts only the exact class `datetime.date` (a `datetime.datetime`, although a
subclass and hence a date value, is rejected), `type(date) is str` accepts only
`str`; anything else raises `ValueError('date must be datetime.date or str')`.
Accepted inputs are normalized through `pd.Timestamp`.
-/

/-- A value of Python's exact class `datetime.date` (year, month, day). -/
structure PyDate where
  year : Nat
  month : Nat
  day : Nat
deriving DecidableEq, Repr

/-- A pandas `Timestamp` at day resolution, the normalized form stored in the
records' `date` field. All inputs the source accepts are day-resolution. -/
structure Timestamp where
  year : Nat
  month : Nat
  day : Nat
deriving DecidableEq, Repr

/-- `pd.Timestamp(d)` applied to a `datetime.date`: day-resolution conversion. -/
def pdTimestampOfDate (d : PyDate) : Timestamp :=
  ⟨d.year, d.month, d.day⟩

/-- Split a character list at each dash, the groups in order. -/
def splitDash : List Char → List (List Char)
  | [] => [[]]
  | c :: rest =>
    let r := splitDash rest
    if c = '-' then [] :: r
    else
      match r with
      | [] => [[c]]
      | g :: gs => (c :: g) :: gs

/-- Read a nonempty all-digit character group as a natural number. -/
def digitsToNat : List Char → Option Nat
  | [] => none
  | cs => go cs 0
where go : List Char → Nat → Option Nat
  | [], acc => some acc
  | c :: rest, acc =>
    if c.isDigit then go rest (acc * 10 + (c.toNat - 48)) else none

/-- Modelled from the spec: `pd.Timestamp` applied to a string is pandas
library code, external to the repository. The spec's examples use ISO
`YYYY-MM-DD` strings ("2024-01-15" parses; "not-a-date" fails), so the model
parses dash-separated numeric year-month-day strings with in-range month and
day, and fails (as pandas raises) on anything else. -/
def pdTimestampOfString (s : String) : Option Timestamp :=
  match splitDash s.data with
  | [y, m, d] =>
    match digitsToNat y, digitsToNat m, digitsToNat d with
    | some yn, some mn, some dn =>
      if 1 ≤ mn ∧ mn ≤ 12 ∧ 1 ≤ dn ∧ dn ≤ 31 then some ⟨yn, mn, dn⟩ else none
    | _, _, _ => none
  | _ => none

/-- The possible runtime types of the `date` argument, classified by the
type tests the source performs. `datetime` is Python's `datetime.datetime`
(a subclass of `datetime.date` carrying a time of day); `pdTimestamp` is a
pandas `Timestamp` object; `otherValue` is any non-date, non-string value. -/
inductive DateInput where
  | date (d : PyDate)
  | datetime (d : PyDate) (hour : Nat) (minute : Nat)
  | pdTimestamp (t : Timestamp)
  | str (s : String)
  | otherValue
deriving DecidableEq, Repr

/-- Errors construction of a record can raise: the source's explicit
`ValueError('date must be datetime.date or str')` for a wrong runtime type,
and the error pandas raises when a string does not parse to a timestamp.
The spec groups both under the name `InvalidDateError`. -/
inductive DateError where
  | typeError (msg : String)
  | parseError (s : String)
deriving DecidableEq, Repr

/-- The claim-side classification "a date value": exact dates, datetimes and
pandas timestamps all are date values at runtime. -/
def DateInput.isDateValue : DateInput → Bool
  | .date _ => true
  | .datetime _ _ _ => true
  | .pdTimestamp _ => true
  | _ => false

/-- The claim-side classification "a string parseable to a timestamp". -/
def DateInput.isParseableString : DateInput → Bool
  | .str s => (pdTimestampOfString s).isSome
  | _ => false

/-! ### Records and record managers (`src/core/strategy/trading/common.py`,
`src/core/strategy/indicator/common.py`) -/

/-- `TradeRecord`: date (normalized), action, signal_type, shares. -/
structure TradeRecord where
  date : Timestamp
  action : String
  signal_type : String
  shares : Int
deriving DecidableEq, Repr

/-- `TradeRecord.__init__`: exact-type dispatch on `date`, normalizing to a
pandas `Timestamp`, raising `ValueError` on any other runtime type and a
pandas error on an unparseable string. -/
def TradeRecord.init (date : DateInput) (action : String) (signal_type : String)
    (shares : Int) : Except DateError TradeRecord :=
  match date with
  | .date d => .ok ⟨pdTimestampOfDate d, action, signal_type, shares⟩
  | .str s =>
    match pdTimestampOfString s with
    | some t => .ok ⟨t, action, signal_type, shares⟩
    | none => .error (.parseError s)
  | _ => .error (.typeError "date must be datetime.date or str")

/-- `TradeRecordManager`: append-only list of trade records. -/
structure TradeRecordManager where
  trade_records : List TradeRecord
deriving DecidableEq, Repr

/-- `TradeRecordManager.__init__`: empty record list. -/
def TradeRecordManager.init : TradeRecordManager := ⟨[]⟩

/-- `TradeRecordManager.add_signal_record`: constructs a `TradeRecord` and
appends it; a constructor exception propagates, so on error no record is
appended and no updated manager results. -/
def TradeRecordManager.add_signal_record (mgr : TradeRecordManager)
    (date : DateInput) (action : String) (signal_type : String) (shares : Int) :
    Except DateError TradeRecordManager :=
  (TradeRecord.init date action signal_type shares).map
    fun r => ⟨mgr.trade_records ++ [r]⟩

/-- `AssetRecord`: date (normalized) and total assets. -/
structure AssetRecord where
  date : Timestamp
  total_assets : ℚ
deriving DecidableEq, Repr

/-- `AssetRecord.__init__`: same exact-type date dispatch as `TradeRecord`. -/
def AssetRecord.init (date : DateInput) (total_assets : ℚ) :
    Except DateError AssetRecord :=
  match date with
  | .date d => .ok ⟨pdTimestampOfDate d, total_assets⟩
  | .str s =>
    match pdTimestampOfString s with
    | some t => .ok ⟨t, total_assets⟩
    | none => .error (.parseError s)
  | _ => .error (.typeError "date must be datetime.date or str")

/-- `AssetRecordManager`: append-only list of asset records. -/
structure AssetRecordManager where
  asset_records : List AssetRecord
deriving DecidableEq, Repr

/-- `AssetRecordManager.__init__`: empty record list. -/
def AssetRecordManager.init : AssetRecordManager := ⟨[]⟩

/-- `AssetRecordManager.add_asset_record`: constructs and appends, the
constructor exception propagating as for trade records. -/
def AssetRecordManager.add_asset_record (mgr : AssetRecordManager)
    (date : DateInput) (total_assets : ℚ) : Except DateError AssetRecordManager :=
  (AssetRecord.init date total_assets).map
    fun r => ⟨mgr.asset_records ++ [r]⟩

/-- `SignalRecord` (`src/core/strategy/indicator/common.py`): date (normalized),
signal type and description. -/
structure SignalRecord where
  date : Timestamp
  signal_type : String
  signal_description : String
deriving DecidableEq, Repr

/-- `SignalRecord.__init__`: same exact-type date dispatch as `TradeRecord`. -/
def SignalRecord.init (date : DateInput) (signal_type : String)
    (signal_description : String) : Except DateError SignalRecord :=
  match date with
  | .date d => .ok ⟨pdTimestampOfDate d, signal_type, signal_description⟩
  | .str s =>
    match pdTimestampOfString s with
    | some t => .ok ⟨t, signal_type, signal_description⟩
    | none => .error (.parseError s)
  | _ => .error (.typeError "date must be datetime.date or str")

/-! ### Commission models (`src/core/strategy/trading/trading_commition.py`)

Parameter records carry only the numeric fields `_getcommission` reads; the
`currency` and `slippage` entries of the source's `params` tuples are unused
by the cost computation. -/

/-- `value = abs(size) * price`, the trade value all three models start from. -/
def tradeValue (size : Int) (price : ℚ) : ℚ :=
  (size.natAbs : ℚ) * price

/-- Parameters of `HKCommission`. -/
structure HKCommissionParams where
  commission : ℚ
  mincommission : ℚ
  stamp_duty : ℚ
  transaction_levy : ℚ
  transaction_fee : ℚ
  trading_system_fee : ℚ
  settlement_fee : ℚ
  min_settlement_fee : ℚ
  max_settlement_fee : ℚ
deriving DecidableEq, Repr

/-- Default parameters of `HKCommission` (the `settings` module is absent, so
every inline default applies). -/
def HKCommission.params : HKCommissionParams :=
  ⟨3/10000, 3, 1/1000, 42/1000000, 565/10000000, 15, 2/100000, 2, 100⟩

/-- The HK settlement-fee component:
`max(min(value * settlement_fee, max_settlement_fee), min_settlement_fee)`. -/
def HKCommission.settlementFeeComponent (p : HKCommissionParams)
    (size : Int) (price : ℚ) : ℚ :=
  max (min (tradeValue size price * p.settlement_fee) p.max_settlement_fee)
    p.min_settlement_fee

/-- `HKCommission._getcommission`: six components — commission with floor,
stamp duty, transaction levy, transaction fee, fixed trading-system fee,
and the clamped settlement fee. -/
def HKCommission.getcommission (p : HKCommissionParams)
    (size : Int) (price : ℚ) : ℚ :=
  max (tradeValue size price * p.commission) p.mincommission
    + tradeValue size price * p.stamp_duty
    + tradeValue size price * p.transaction_levy
    + tradeValue size price * p.transaction_fee
    + p.trading_system_fee
    + HKCommission.settlementFeeComponent p size price

/-- Parameters of `CNCommission`. -/
structure CNCommissionParams where
  commission : ℚ
  mincommission : ℚ
  stamp_duty : ℚ
  transaction_levy : ℚ
  transaction_fee : ℚ
  trading_system_fee : ℚ
  settlement_fee : ℚ
deriving DecidableEq, Repr

/-- Default parameters of `CNCommission`. -/
def CNCommission.params : CNCommissionParams :=
  ⟨3/10000, 3, 25/100000, 341/10000000, 2/100000, 15, 2/100000⟩

/-- `CNCommission._getcommission`: same shape as HK but the settlement fee is
unclamped. -/
def CNCommission.getcommission (p : CNCommissionParams)
    (size : Int) (price : ℚ) : ℚ :=
  max (tradeValue size price * p.commission) p.mincommission
    + tradeValue size price * p.stamp_duty
    + tradeValue size price * p.transaction_levy
    + tradeValue size price * p.transaction_fee
    + p.trading_system_fee
    + tradeValue size price * p.settlement_fee

/-- Parameters of `USCommission` read by `_getcommission`. -/
structure USCommissionParams where
  commission_per_share : ℚ
  min_commission : ℚ
  max_commission_rate : ℚ
  min_trading_system_per_share : ℚ
  max_trading_system_rate : ℚ
  min_trading_system_fee : ℚ
  settlement_activity_fee_per_share : ℚ
  min_settlement_activity_fee : ℚ
  max_settlement_activity_fee : ℚ
  comprehensive_audit_supervision_fee : ℚ
deriving DecidableEq, Repr

/-- Default parameters of `USCommission`. -/
def USCommission.params : USCommissionParams :=
  ⟨49/10000, 99/100, 5/1000, 5/1000, 5/1000, 1, 166/1000000, 5/1000, 83/10,
    265/10000000⟩

/-- The US commission component: `abs(size) * commission_per_share`, raised to
`min_commission` when below it, else capped at `value * max_commission_rate`
when above that (the floor and cap branches are an if/elif chain). -/
def USCommission.commissionComponent (p : USCommissionParams)
    (size : Int) (price : ℚ) : ℚ :=
  if (size.natAbs : ℚ) * p.commission_per_share < p.min_commission then
    p.min_commission
  else if (size.natAbs : ℚ) * p.commission_per_share
      > tradeValue size price * p.max_commission_rate then
    tradeValue size price * p.max_commission_rate
  else
    (size.natAbs : ℚ) * p.commission_per_share

/-- The US trading-system-fee component: per-share with its own floor
(`min_trading_system_fee`) and cap (`value * max_trading_system_rate`),
again an if/elif chain. -/
def USCommission.tradingSystemFeeComponent (p : USCommissionParams)
    (size : Int) (price : ℚ) : ℚ :=
  if (size.natAbs : ℚ) * p.min_trading_system_per_share
      < p.min_trading_system_fee then
    p.min_trading_system_fee
  else if (size.natAbs : ℚ) * p.min_trading_system_per_share
      > tradeValue size price * p.max_trading_system_rate then
    tradeValue size price * p.max_trading_system_rate
  else
    (size.natAbs : ℚ) * p.min_trading_system_per_share

/-- The US settlement-activity-fee component: per-share with absolute floor
and cap, an if/elif chain. -/
def USCommission.settlementActivityFeeComponent (p : USCommissionParams)
    (size : Int) : ℚ :=
  if (size.natAbs : ℚ) * p.settlement_activity_fee_per_share
      < p.min_settlement_activity_fee then
    p.min_settlement_activity_fee
  else if (size.natAbs : ℚ) * p.settlement_activity_fee_per_share
      > p.max_settlement_activity_fee then
    p.max_settlement_activity_fee
  else
    (size.natAbs : ℚ) * p.settlement_activity_fee_per_share

/-- `USCommission._getcommission`: the three computed components plus the
fixed comprehensive audit/supervision fee. -/
def USCommission.getcommission (p : USCommissionParams)
    (size : Int) (price : ℚ) : ℚ :=
  USCommission.commissionComponent p size price
    + USCommission.tradingSystemFeeComponent p size price
    + USCommission.settlementActivityFeeComponent p size
    + p.comprehensive_audit_supervision_fee

/-- The commission model a factory lookup returns. -/
inductive CommissionModel where
  | HK
  | CN
  | US
deriving DecidableEq, Repr

/-- The cost function of each model, with its default parameters. -/
def CommissionModel.getcommission : CommissionModel → Int → ℚ → ℚ
  | .HK => HKCommission.getcommission HKCommission.params
  | .CN => CNCommission.getcommission CNCommission.params
  | .US => USCommission.getcommission USCommission.params

/-- `CommissionFactory.get_commission`: case-sensitive market dispatch with a
logged-warning fallback to the HK model for any other market string. -/
def CommissionFactory.get_commission (market : String) : CommissionModel :=
  if market = "HK" then .HK
  else if market = "US" then .US
  else if market = "CN" then .CN
  else .HK

/-! ### Strategy order lifecycle (`src/core/strategy/trading/common.py`,
`StrategyBase`) -/

/-- Order statuses the source inspects (spec section 6 lists the same set). -/
inductive OrderStatus where
  | Submitted
  | Accepted
  | Completed
  | Canceled
  | Margin
  | Rejected
deriving DecidableEq, Repr

/-- An order notification from the broker: status, direction, and the
executed (signed) size and price of the fill. -/
structure Order where
  status : OrderStatus
  isBuyOrder : Bool
  executedSize : Int
  executedPrice : ℚ
deriving DecidableEq, Repr

/-- `order.isbuy()`. -/
def Order.isbuy (o : Order) : Bool := o.isBuyOrder

/-- `order.issell()`. -/
def Order.issell (o : Order) : Bool := !o.isBuyOrder

/-- The mutable state of `StrategyBase` relevant to signals, executions and
bookkeeping: the two record managers, the four counters, the pending-order
reference, and the log of realized commissions written by `notify_order`. -/
structure StrategyBase where
  trade_record_manager : TradeRecordManager
  asset_record_manager : AssetRecordManager
  buy_signals_count : Nat
  sell_signals_count : Nat
  executed_buys_count : Nat
  executed_sells_count : Nat
  commission_log : List ℚ
  order : Option Order
deriving DecidableEq, Repr

/-- `StrategyBase.__init__`: empty managers, all four counters zero, no
pending order. -/
def StrategyBase.init : StrategyBase :=
  ⟨TradeRecordManager.init, AssetRecordManager.init, 0, 0, 0, 0, [], none⟩

/-- `StrategyBase.calculate_commission`: delegates to the broker's commission
model's `_getcommission` (here the model `m` the broker was configured with)
and returns its total. -/
def StrategyBase.calculate_commission (m : CommissionModel)
    (size : Int) (price : ℚ) : ℚ :=
  m.getcommission size price

/-- `StrategyBase.notify_order`: returns unchanged on `Submitted`/`Accepted`;
on `Completed` increments the per-direction executed counter and logs the
commission computed from the executed (signed) size and price; on
`Canceled`/`Margin`/`Rejected` only logs; in every non-early-return case the
pending-order reference is cleared. -/
def StrategyBase.notify_order (s : StrategyBase) (m : CommissionModel)
    (o : Order) : StrategyBase :=
  if o.status = .Submitted ∨ o.status = .Accepted then s
  else
    let s1 :=
      if o.status = .Completed then
        let s0 :=
          if o.isbuy then
            { s with executed_buys_count := s.executed_buys_count + 1 }
          else if o.issell then
            { s with executed_sells_count := s.executed_sells_count + 1 }
          else s
        { s0 with commission_log :=
            s0.commission_log
              ++ [StrategyBase.calculate_commission m o.executedSize o.executedPrice] }
      else s
    { s1 with order := none }

/-! ### Signal-generation transition system

The code that increments `buy_signals_count` / `sell_signals_count` and
submits orders lives in strategy subclasses excluded from the sources; only
the counter declarations and `notify_order` are present. The generation step
is therefore modelled from the spec, and completed-order notifications are
constrained to orders previously submitted (the spec's "the core assumes
well-formed fill/trade callbacks"). -/

/-- An event of the strategy's synchronous tick loop. -/
inductive StratEvent where
  | buySignal (submits : Bool)
  | sellSignal (submits : Bool)
  | orderEvent (o : Order)
deriving DecidableEq, Repr

/-- The strategy state together with the orders submitted but not yet
completed, per direction. -/
structure SignalSystemState where
  strat : StrategyBase
  pending_buys : Nat
  pending_sells : Nat
deriving DecidableEq, Repr

/-- Initial system state: freshly initialized strategy, no pending orders. -/
def SignalSystemState.init : SignalSystemState :=
  ⟨StrategyBase.init, 0, 0⟩

/-- Modelled from the spec: signal generation (excluded subclass code)
increments the per-direction signal counter and may or may not submit an
order (for example the excluded order-sizing policy may veto it); a
`Completed` notification is well-formed only for a previously submitted,
not-yet-completed order of the matching direction, and any notification is
delivered to `StrategyBase.notify_order`. -/
def signalStep (m : CommissionModel) (s : SignalSystemState) :
    StratEvent → Option SignalSystemState
  | .buySignal submits =>
    some ⟨{ s.strat with buy_signals_count := s.strat.buy_signals_count + 1 },
      s.pending_buys + (if submits then 1 else 0), s.pending_sells⟩
  | .sellSignal submits =>
    some ⟨{ s.strat with sell_signals_count := s.strat.sell_signals_count + 1 },
      s.pending_buys, s.pending_sells + (if submits then 1 else 0)⟩
  | .orderEvent o =>
    if o.status = .Completed then
      if o.isBuyOrder then
        if s.pending_buys = 0 then none
        else some ⟨s.strat.notify_order m o, s.pending_buys - 1, s.pending_sells⟩
      else
        if s.pending_sells = 0 then none
        else some ⟨s.strat.notify_order m o, s.pending_buys, s.pending_sells - 1⟩
    else
      some ⟨s.strat.notify_order m o, s.pending_buys, s.pending_sells⟩

/-- Run a sequence of events from a state; `none` when an event is not
well-formed at its state. -/
def signalRun (m : CommissionModel) (s : SignalSystemState) :
    List StratEvent → Option SignalSystemState
  | [] => some s
  | e :: rest =>
    match signalStep m s e with
    | some s2 => signalRun m s2 rest
    | none => none

/-- The invariant coupling signal, execution and pending-order counts: each
direction's signal count covers its executed orders plus its still-pending
orders. -/
def SignalInv (s : SignalSystemState) : Prop :=
  s.strat.executed_buys_count + s.pending_buys ≤ s.strat.buy_signals_count
    ∧ s.strat.executed_sells_count + s.pending_sells ≤ s.strat.sell_signals_count

/-! ### Helper lemmas -/

/-- Effect of `notify_order` on a `Completed` order: record managers and
signal counters untouched, the realized commission appended to the log, the
pending-order reference cleared, and exactly the matching executed counter
incremented. -/
lemma notify_order_completed_effect (s : StrategyBase) (m : CommissionModel)
    (o : Order) (h : o.status = .Completed) :
    (s.notify_order m o).trade_record_manager = s.trade_record_manager
    ∧ (s.notify_order m o).asset_record_manager = s.asset_record_manager
    ∧ (s.notify_order m o).buy_signals_count = s.buy_signals_count
    ∧ (s.notify_order m o).sell_signals_count = s.sell_signals_count
    ∧ (s.notify_order m o).commission_log
        = s.commission_log ++ [m.getcommission o.executedSize o.executedPrice]
    ∧ (s.notify_order m o).order = none
    ∧ (if o.isBuyOrder then
        (s.notify_order m o).executed_buys_count = s.executed_buys_count + 1
          ∧ (s.notify_order m o).executed_sells_count = s.executed_sells_count
      else
        (s.notify_order m o).executed_sells_count = s.executed_sells_count + 1
          ∧ (s.notify_order m o).executed_buys_count = s.executed_buys_count) := by
  cases hb : o.isBuyOrder <;>
    simp [StrategyBase.notify_order, h, Order.isbuy, Order.issell, hb,
      StrategyBase.calculate_commission]

/-- Effect of `notify_order` on a non-`Completed` order: no counter or
record change. -/
lemma notify_order_not_completed_effect (s : StrategyBase) (m : CommissionModel)
    (o : Order) (h : o.status ≠ .Completed) :
    (s.notify_order m o).buy_signals_count = s.buy_signals_count
    ∧ (s.notify_order m o).sell_signals_count = s.sell_signals_count
    ∧ (s.notify_order m o).executed_buys_count = s.executed_buys_count
    ∧ (s.notify_order m o).executed_sells_count = s.executed_sells_count := by
  by_cases hsa : o.status = .Submitted ∨ o.status = .Accepted <;>
    simp [StrategyBase.notify_order, hsa, h]

/-- One well-formed event preserves the signal-count invariant. -/
lemma signalStep_preserves (m : CommissionModel) (s s2 : SignalSystemState)
    (e : StratEvent) (hInv : SignalInv s) (h : signalStep m s e = some s2) :
    SignalInv s2 := by
  obtain ⟨hb, hs⟩ := hInv
  cases e with
  | buySignal submits =>
    simp only [signalStep, Option.some.injEq] at h
    subst h
    constructor <;> simp <;> [split <;> omega; omega]
  | sellSignal submits =>
    simp only [signalStep, Option.some.injEq] at h
    subst h
    constructor <;> simp <;> [omega; split <;> omega]
  | orderEvent o =>
    by_cases hc : o.status = .Completed
    · have he := notify_order_completed_effect s.strat m o hc
      cases hbo : o.isBuyOrder
      · rw [hbo] at he
        simp only [Bool.false_eq_true, if_false] at he
        obtain ⟨-, -, h3, h4, -, -, h7, h8⟩ := he
        rcases hps : s.pending_sells with _ | k
        · simp [signalStep, hc, hbo, hps] at h
        · simp only [signalStep, hc, hbo, hps] at h
          simp at h
          subst h
          simp only [SignalInv]
          omega
      · rw [hbo] at he
        simp only [if_true] at he
        obtain ⟨-, -, h3, h4, -, -, h7, h8⟩ := he
        rcases hpb : s.pending_buys with _ | k
        · simp [signalStep, hc, hbo, hpb] at h
        · simp only [signalStep, hc, hbo, hpb] at h
          simp at h
          subst h
          simp only [SignalInv]
          omega
    · simp only [signalStep, hc] at h
      simp [hc] at h
      subst h
      obtain ⟨h1, h2, h3, h4⟩ := notify_order_not_completed_effect s.strat m o hc
      simp only [SignalInv]
      omega

/-- A well-formed run preserves the signal-count invariant. -/
lemma signalRun_preserves (m : CommissionModel) :
    ∀ (events : List StratEvent) (s s2 : SignalSystemState),
      SignalInv s → signalRun m s events = some s2 → SignalInv s2
  | [], s, s2, hInv, h => by
    simp only [signalRun, Option.some.injEq] at h
    exact h ▸ hInv
  | e :: rest, s, s2, hInv, h => by
    rw [signalRun] at h
    cases he : signalStep m s e with
    | none => rw [he] at h; exact absurd h (by simp)
    | some s1 =>
      rw [he] at h
      exact signalRun_preserves m rest s1 s2 (signalStep_preserves m s s1 e hInv he) h

/-- A clamp written `max (min x hi) lo` agrees with `min (max x lo) hi`
whenever `lo ≤ hi`. -/
lemma max_min_clamp_comm (x lo hi : ℚ) (h : lo ≤ hi) :
    max (min x hi) lo = min (max x lo) hi := by
  rw [max_comm, max_min_distrib_left, max_comm lo x, max_eq_right h]

/-- The trade value is nonnegative for a nonnegative price. -/
lemma tradeValue_nonneg (size : Int) (price : ℚ) (hp : 0 ≤ price) :
    0 ≤ tradeValue size price :=
  mul_nonneg (Nat.cast_nonneg _) hp

/-- C4 helper: the HK total written out with the default parameter values. -/
lemma hk_getcommission_unfold (size : Int) (price : ℚ) :
    HKCommission.getcommission HKCommission.params size price
      = max (tradeValue size price * (3/10000)) 3
        + tradeValue size price * (1/1000)
        + tradeValue size price * (42/1000000)
        + tradeValue size price * (565/10000000)
        + 15
        + max (min (tradeValue size price * (2/100000)) 100) 2 := rfl

/-- The HK total is nonnegative for a nonnegative price. -/
lemma hk_getcommission_nonneg (size : Int) (price : ℚ) (hp : 0 ≤ price) :
    0 ≤ HKCommission.getcommission HKCommission.params size price := by
  have hv := tradeValue_nonneg size price hp
  rw [hk_getcommission_unfold]
  have h1 := le_max_right (tradeValue size price * (3/10000)) (3:ℚ)
  have h2 := le_max_right (min (tradeValue size price * (2/100000)) 100) (2:ℚ)
  have h3 : 0 ≤ tradeValue size price * (1/1000) := by positivity
  have h4 : 0 ≤ tradeValue size price * (42/1000000) := by positivity
  have h5 : 0 ≤ tradeValue size price * (565/10000000) := by positivity
  linarith

/-- The HK total is monotone in the trade value. -/
lemma hk_getcommission_mono (s1 s2 : Int) (p1 p2 : ℚ)
    (hv : tradeValue s1 p1 ≤ tradeValue s2 p2) :
    HKCommission.getcommission HKCommission.params s1 p1
      ≤ HKCommission.getcommission HKCommission.params s2 p2 := by
  rw [hk_getcommission_unfold, hk_getcommission_unfold]
  have m1 : tradeValue s1 p1 * (3/10000) ≤ tradeValue s2 p2 * (3/10000) :=
    mul_le_mul_of_nonneg_right hv (by norm_num)
  have m2 : tradeValue s1 p1 * (1/1000) ≤ tradeValue s2 p2 * (1/1000) :=
    mul_le_mul_of_nonneg_right hv (by norm_num)
  have m3 : tradeValue s1 p1 * (42/1000000) ≤ tradeValue s2 p2 * (42/1000000) :=
    mul_le_mul_of_nonneg_right hv (by norm_num)
  have m4 : tradeValue s1 p1 * (565/10000000) ≤ tradeValue s2 p2 * (565/10000000) :=
    mul_le_mul_of_nonneg_right hv (by norm_num)
  have m5 : tradeValue s1 p1 * (2/100000) ≤ tradeValue s2 p2 * (2/100000) :=
    mul_le_mul_of_nonneg_right hv (by norm_num)
  exact add_le_add
    (add_le_add (add_le_add (add_le_add (add_le_add (max_le_max m1 le_rfl) m2) m3) m4)
      le_rfl)
    (max_le_max (min_le_min m5 le_rfl) le_rfl)

/-- C8 helper: the CN total written out with the default parameter values. -/
lemma cn_getcommission_unfold (size : Int) (price : ℚ) :
    CNCommission.getcommission CNCommission.params size price
      = max (tradeValue size price * (3/10000)) 3
        + tradeValue size price * (25/100000)
        + tradeValue size price * (341/10000000)
        + tradeValue size price * (2/100000)
        + 15
        + tradeValue size price * (2/100000) := rfl

/-- The CN total is nonnegative for a nonnegative price. -/
lemma cn_getcommission_nonneg (size : Int) (price : ℚ) (hp : 0 ≤ price) :
    0 ≤ CNCommission.getcommission CNCommission.params size price := by
  have hv := tradeValue_nonneg size price hp
  rw [cn_getcommission_unfold]
  have h1 := le_max_right (tradeValue size price * (3/10000)) (3:ℚ)
  have h3 : 0 ≤ tradeValue size price * (25/100000) := by positivity
  have h4 : 0 ≤ tradeValue size price * (341/10000000) := by positivity
  have h5 : 0 ≤ tradeValue size price * (2/100000) := by positivity
  linarith

/-- The CN total is monotone in the trade value. -/
lemma cn_getcommission_mono (s1 s2 : Int) (p1 p2 : ℚ)
    (hv : tradeValue s1 p1 ≤ tradeValue s2 p2) :
    CNCommission.getcommission CNCommission.params s1 p1
      ≤ CNCommission.getcommission CNCommission.params s2 p2 := by
  rw [cn_getcommission_unfold, cn_getcommission_unfold]
  have m1 : tradeValue s1 p1 * (3/10000) ≤ tradeValue s2 p2 * (3/10000) :=
    mul_le_mul_of_nonneg_right hv (by norm_num)
  have m2 : tradeValue s1 p1 * (25/100000) ≤ tradeValue s2 p2 * (25/100000) :=
    mul_le_mul_of_nonneg_right hv (by norm_num)
  have m3 : tradeValue s1 p1 * (341/10000000) ≤ tradeValue s2 p2 * (341/10000000) :=
    mul_le_mul_of_nonneg_right hv (by norm_num)
  have m4 : tradeValue s1 p1 * (2/100000) ≤ tradeValue s2 p2 * (2/100000) :=
    mul_le_mul_of_nonneg_right hv (by norm_num)
  exact add_le_add
    (add_le_add (add_le_add (add_le_add (add_le_add (max_le_max m1 le_rfl) m2) m3) m4)
      le_rfl) m4

/-- Every US component, and hence the US total, is nonnegative for a
nonnegative price. -/
lemma us_getcommission_nonneg (size : Int) (price : ℚ) (hp : 0 ≤ price) :
    0 ≤ USCommission.getcommission USCommission.params size price := by
  have hv := tradeValue_nonneg size price hp
  have hn : (0:ℚ) ≤ (size.natAbs : ℚ) := Nat.cast_nonneg _
  have h1 : 0 ≤ USCommission.commissionComponent USCommission.params size price := by
    simp only [USCommission.commissionComponent, USCommission.params]
    split_ifs <;> [norm_num; nlinarith; nlinarith]
  have h2 : 0 ≤ USCommission.tradingSystemFeeComponent USCommission.params size price := by
    simp only [USCommission.tradingSystemFeeComponent, USCommission.params]
    split_ifs <;> [norm_num; nlinarith; nlinarith]
  have h3 : 0 ≤ USCommission.settlementActivityFeeComponent USCommission.params size := by
    simp only [USCommission.settlementActivityFeeComponent, USCommission.params]
    split_ifs <;> [norm_num; norm_num; nlinarith]
  have h4 : (0:ℚ) ≤ USCommission.params.comprehensive_audit_supervision_fee := by
    norm_num [USCommission.params]
  simp only [USCommission.getcommission]
  linarith

/-! ### Claim theorems -/

/-- C1 (counterexample): delivering a `Completed` buy order to `notify_order`
does not grow the trade-record list — the claim's part "appends a TradeRecord
to its trade-record manager" is false already at the initial state with a
completed buy fill of 200 shares at price 100. -/
theorem notify_order_appends_no_trade_record :
    ¬ ((StrategyBase.init.notify_order CommissionModel.HK
          ⟨OrderStatus.Completed, true, 200, 100⟩).trade_record_manager.trade_records.length
        = StrategyBase.init.trade_record_manager.trade_records.length + 1) := by
  have h := (notify_order_completed_effect StrategyBase.init CommissionModel.HK
    ⟨OrderStatus.Completed, true, 200, 100⟩ rfl).1
  rw [h]
  simp

/-- C1 (amended): for every `Completed` order notification, `notify_order`
leaves the trade-record manager unchanged, invokes the commission model with
the fill's signed size and price (appending the result to the commission
log), and increments exactly one of the executed counters according to the
order's direction. -/
theorem notify_order_completed_updates (m : CommissionModel) (s : StrategyBase)
    (o : Order) (h : o.status = OrderStatus.Completed) :
    (s.notify_order m o).trade_record_manager = s.trade_record_manager
    ∧ (s.notify_order m o).commission_log
        = s.commission_log ++ [m.getcommission o.executedSize o.executedPrice]
    ∧ (if o.isbuy then
        (s.notify_order m o).executed_buys_count = s.executed_buys_count + 1
          ∧ (s.notify_order m o).executed_sells_count = s.executed_sells_count
      else
        (s.notify_order m o).executed_sells_count = s.executed_sells_count + 1
          ∧ (s.notify_order m o).executed_buys_count = s.executed_buys_count) := by
  obtain ⟨h1, -, -, -, h5, -, h7⟩ := notify_order_completed_effect s m o h
  exact ⟨h1, h5, h7⟩

/-- C1 witness: the amended claim at the initial state and a completed buy
order of 200 shares at price 100 under the HK model. -/
theorem notify_order_completed_updates_w :
    (StrategyBase.init.notify_order CommissionModel.HK
        ⟨OrderStatus.Completed, true, 200, 100⟩).trade_record_manager
      = StrategyBase.init.trade_record_manager
    ∧ (StrategyBase.init.notify_order CommissionModel.HK
        ⟨OrderStatus.Completed, true, 200, 100⟩).commission_log
      = StrategyBase.init.commission_log ++ [CommissionModel.HK.getcommission 200 100]
    ∧ (if Order.isbuy ⟨OrderStatus.Completed, true, 200, 100⟩ then
        (StrategyBase.init.notify_order CommissionModel.HK
            ⟨OrderStatus.Completed, true, 200, 100⟩).executed_buys_count
          = StrategyBase.init.executed_buys_count + 1
          ∧ (StrategyBase.init.notify_order CommissionModel.HK
              ⟨OrderStatus.Completed, true, 200, 100⟩).executed_sells_count
            = StrategyBase.init.executed_sells_count
      else
        (StrategyBase.init.notify_order CommissionModel.HK
            ⟨OrderStatus.Completed, true, 200, 100⟩).executed_sells_count
          = StrategyBase.init.executed_sells_count + 1
          ∧ (StrategyBase.init.notify_order CommissionModel.HK
              ⟨OrderStatus.Completed, true, 200, 100⟩).executed_buys_count
            = StrategyBase.init.executed_buys_count) :=
  notify_order_completed_updates CommissionModel.HK StrategyBase.init
    ⟨OrderStatus.Completed, true, 200, 100⟩ rfl

/-- C2: a date that is neither a date value nor a parseable string makes
`TradeRecord` and `AssetRecord` construction fail with a date error and makes
the manager append nothing; the string "2024-01-15" succeeds and stores the
same timestamp as constructing from `datetime.date(2024, 1, 15)`. -/
theorem record_construction_date_validation (d : DateInput)
    (mgr : TradeRecordManager) (action signal_type : String) (shares : Int)
    (total_assets : ℚ)
    (hdv : d.isDateValue = false) (hps : d.isParseableString = false) :
    (∃ e, TradeRecord.init d action signal_type shares = Except.error e)
    ∧ (∃ e, AssetRecord.init d total_assets = Except.error e)
    ∧ (∃ e, mgr.add_signal_record d action signal_type shares = Except.error e)
    ∧ (∃ r1 r2, TradeRecord.init (.str "2024-01-15") action signal_type shares
          = Except.ok r1
        ∧ TradeRecord.init (.date ⟨2024, 1, 15⟩) action signal_type shares
          = Except.ok r2
        ∧ r1.date = r2.date)
    ∧ (∃ a1 a2, AssetRecord.init (.str "2024-01-15") total_assets = Except.ok a1
        ∧ AssetRecord.init (.date ⟨2024, 1, 15⟩) total_assets = Except.ok a2
        ∧ a1.date = a2.date) := by
  have hnone : ∀ s : String, d = .str s → pdTimestampOfString s = none := by
    intro s hd
    subst hd
    cases hq : pdTimestampOfString s with
    | none => rfl
    | some t => simp [DateInput.isParseableString, hq] at hps
  have hTR : ∃ e, TradeRecord.init d action signal_type shares = Except.error e := by
    cases d with
    | date dd => simp [DateInput.isDateValue] at hdv
    | datetime dd hh mm => exact ⟨_, rfl⟩
    | pdTimestamp t => exact ⟨_, rfl⟩
    | otherValue => exact ⟨_, rfl⟩
    | str s =>
      refine ⟨.parseError s, ?_⟩
      simp [TradeRecord.init, hnone s rfl]
  have hAR : ∃ e, AssetRecord.init d total_assets = Except.error e := by
    cases d with
    | date dd => simp [DateInput.isDateValue] at hdv
    | datetime dd hh mm => exact ⟨_, rfl⟩
    | pdTimestamp t => exact ⟨_, rfl⟩
    | otherValue => exact ⟨_, rfl⟩
    | str s =>
      refine ⟨.parseError s, ?_⟩
      simp [AssetRecord.init, hnone s rfl]
  obtain ⟨e, he⟩ := hTR
  refine ⟨⟨e, he⟩, hAR, ⟨e, ?_⟩, ⟨_, _, rfl, rfl, rfl⟩, ⟨_, _, rfl, rfl, rfl⟩⟩
  simp [TradeRecordManager.add_signal_record, he, Except.map]

/-- C2 witness: the failing branch at a non-date, non-string value and the
succeeding branch at "2024-01-15". -/
theorem record_construction_date_validation_w :
    (∃ e, TradeRecord.init .otherValue "Buy" "sig" 100 = Except.error e)
    ∧ (∃ r1 r2, TradeRecord.init (.str "2024-01-15") "Buy" "sig" 100
          = Except.ok r1
        ∧ TradeRecord.init (.date ⟨2024, 1, 15⟩) "Buy" "sig" 100 = Except.ok r2
        ∧ r1.date = r2.date) :=
  ⟨(record_construction_date_validation .otherValue TradeRecordManager.init
      "Buy" "sig" 100 5 rfl rfl).1,
    (record_construction_date_validation .otherValue TradeRecordManager.init
      "Buy" "sig" 100 5 rfl rfl).2.2.2.1⟩

/-- C3: in every state reachable from the initial state by well-formed signal
generations and order notifications, each direction's signal count dominates
its executed count. -/
theorem signal_counts_dominate_executed (m : CommissionModel)
    (events : List StratEvent) (s : SignalSystemState)
    (h : signalRun m SignalSystemState.init events = some s) :
    s.strat.executed_buys_count ≤ s.strat.buy_signals_count
    ∧ s.strat.executed_sells_count ≤ s.strat.sell_signals_count := by
  have hinv : SignalInv s :=
    signalRun_preserves m events SignalSystemState.init s
      ⟨Nat.le_refl 0, Nat.le_refl 0⟩ h
  obtain ⟨h1, h2⟩ := hinv
  exact ⟨by omega, by omega⟩

/-- C3 witness: one buy signal that submits an order, followed by the
completion of that order under the HK model. -/
theorem signal_counts_dominate_executed_w :
    (⟨⟨TradeRecordManager.init, AssetRecordManager.init, 1, 0, 1, 0,
          [StrategyBase.calculate_commission CommissionModel.HK 200 100], none⟩,
        0, 0⟩ : SignalSystemState).strat.executed_buys_count
      ≤ (⟨⟨TradeRecordManager.init, AssetRecordManager.init, 1, 0, 1, 0,
          [StrategyBase.calculate_commission CommissionModel.HK 200 100], none⟩,
        0, 0⟩ : SignalSystemState).strat.buy_signals_count
    ∧ (⟨⟨TradeRecordManager.init, AssetRecordManager.init, 1, 0, 1, 0,
          [StrategyBase.calculate_commission CommissionModel.HK 200 100], none⟩,
        0, 0⟩ : SignalSystemState).strat.executed_sells_count
      ≤ (⟨⟨TradeRecordManager.init, AssetRecordManager.init, 1, 0, 1, 0,
          [StrategyBase.calculate_commission CommissionModel.HK 200 100], none⟩,
        0, 0⟩ : SignalSystemState).strat.sell_signals_count :=
  signal_counts_dominate_executed CommissionModel.HK
    [.buySignal true, .orderEvent ⟨OrderStatus.Completed, true, 200, 100⟩] _ rfl

/-- C4: the HK total is exactly the six-component sum, the settlement
component clamps to the cap whenever the unclamped value exceeds it, and
size 200 at price 100 yields exactly 44.97. -/
theorem hk_commission_components (size : Int) (price : ℚ)
    (hs : size ≠ 0) (hp : 0 < price) :
    HKCommission.getcommission HKCommission.params size price
      = max (tradeValue size price * (3/10000)) 3
        + tradeValue size price * (1/1000)
        + tradeValue size price * (42/1000000)
        + tradeValue size price * (565/10000000)
        + 15
        + min (max (tradeValue size price * (2/100000)) 2) 100
    ∧ (100 < tradeValue size price * (2/100000) →
        HKCommission.settlementFeeComponent HKCommission.params size price = 100)
    ∧ HKCommission.getcommission HKCommission.params 200 100 = 4497/100 := by
  refine ⟨?_, ?_, ?_⟩
  · rw [hk_getcommission_unfold, max_min_clamp_comm _ _ _ (by norm_num)]
  · intro h9
    simp only [HKCommission.settlementFeeComponent, HKCommission.params]
    rw [min_eq_right h9.le, max_eq_left (by norm_num)]
  · rw [hk_getcommission_unfold]
    norm_num [tradeValue]

/-- C4 witness: the six-component decomposition and total at size 200,
price 100. -/
theorem hk_commission_components_w :
    (200 : Int) ≠ 0 ∧ (0 : ℚ) < 100
    ∧ HKCommission.getcommission HKCommission.params 200 100 = 4497/100 :=
  ⟨by decide, by norm_num,
    (hk_commission_components 200 100 (by decide) (by norm_num)).2.2⟩

/-- C5: the factory falls back to the HK model for every market string
outside HK, US, CN: the returned model's cost function agrees with the HK
model's on every size and price. -/
theorem get_commission_unknown_market_fallback (market : String)
    (h1 : market ≠ "HK") (h2 : market ≠ "US") (h3 : market ≠ "CN")
    (size : Int) (price : ℚ) :
    (CommissionFactory.get_commission market).getcommission size price
      = (CommissionFactory.get_commission "HK").getcommission size price := by
  simp [CommissionFactory.get_commission, h1, h2, h3]

/-- C5 witness: the unknown market "JP" computes the HK cost at size 200,
price 100. -/
theorem get_commission_unknown_market_fallback_w :
    (CommissionFactory.get_commission "JP").getcommission 200 100
      = (CommissionFactory.get_commission "HK").getcommission 200 100 :=
  get_commission_unknown_market_fallback "JP" (by decide) (by decide) (by decide)
    200 100

/-- C6: whenever the US per-share commission is below the minimum, the
commission component equals the minimum 0.99 and the total is that floor plus
the other three components. -/
theorem us_commission_floor_applies (size : Int) (price : ℚ)
    (h : (size.natAbs : ℚ) * (49/10000) < 99/100) :
    USCommission.commissionComponent USCommission.params size price = 99/100
    ∧ USCommission.getcommission USCommission.params size price
      = 99/100
        + USCommission.tradingSystemFeeComponent USCommission.params size price
        + USCommission.settlementActivityFeeComponent USCommission.params size
        + 265/10000000 := by
  have hc : USCommission.commissionComponent USCommission.params size price
      = 99/100 := by
    simp only [USCommission.commissionComponent, USCommission.params]
    split_ifs
    rfl
  refine ⟨hc, ?_⟩
  simp only [USCommission.getcommission]
  rw [hc]
  simp [USCommission.params]

/-- C6 witness: size 1, price 0.01 — the commission component is the floor
0.99, not the per-share product 0.0049. -/
theorem us_commission_floor_applies_w :
    ((1 : Int).natAbs : ℚ) * (49/10000) < 99/100
    ∧ USCommission.commissionComponent USCommission.params 1 (1/100) = 99/100 :=
  ⟨by norm_num, (us_commission_floor_applies 1 (1/100) (by norm_num)).1⟩

/-- C7: every market model's total is direction-independent: flipping the
sign of the size leaves the commission unchanged. -/
theorem commission_direction_independent (m : CommissionModel) (size : Int)
    (price : ℚ) (hs : size ≠ 0) (hp : 0 < price) :
    m.getcommission size price = m.getcommission (-size) price := by
  cases m <;>
    simp [CommissionModel.getcommission, HKCommission.getcommission,
      CNCommission.getcommission, USCommission.getcommission,
      HKCommission.settlementFeeComponent, USCommission.commissionComponent,
      USCommission.tradingSystemFeeComponent,
      USCommission.settlementActivityFeeComponent, tradeValue, Int.natAbs_neg]

/-- C7 witness: the HK model at size 200 versus size -200, price 100. -/
theorem commission_direction_independent_w :
    CommissionModel.HK.getcommission 200 100
      = CommissionModel.HK.getcommission (-200) 100 :=
  commission_direction_independent CommissionModel.HK 200 100 (by decide)
    (by norm_num)

/-- C8 (counterexample): the US total is not monotone in the trade value
|size| * price: the trade (size 1000, price 1) has the smaller value but the
strictly larger total than (size 1, price 2000). -/
theorem us_commission_not_value_monotone :
    tradeValue 1000 1 ≤ tradeValue 1 2000
    ∧ CommissionModel.US.getcommission 1 2000
        < CommissionModel.US.getcommission 1000 1 := by
  constructor
  · norm_num [tradeValue]
  · norm_num [CommissionModel.getcommission, USCommission.getcommission,
      USCommission.commissionComponent, USCommission.tradingSystemFeeComponent,
      USCommission.settlementActivityFeeComponent, USCommission.params,
      tradeValue]

/-- C8 (amended): every model's total is nonnegative on any trade, and the
HK and CN totals (not the US total) are monotone non-decreasing in the trade
value |size| * price. -/
theorem commission_nonneg_and_value_monotone_hk_cn (m : CommissionModel)
    (s1 s2 : Int) (p1 p2 : ℚ) (hs1 : s1 ≠ 0) (hp1 : 0 < p1)
    (hs2 : s2 ≠ 0) (hp2 : 0 < p2)
    (hv : tradeValue s1 p1 ≤ tradeValue s2 p2) :
    0 ≤ m.getcommission s1 p1
    ∧ (m ≠ CommissionModel.US →
        m.getcommission s1 p1 ≤ m.getcommission s2 p2) := by
  cases m with
  | HK =>
    exact ⟨hk_getcommission_nonneg s1 p1 hp1.le,
      fun _ => hk_getcommission_mono s1 s2 p1 p2 hv⟩
  | CN =>
    exact ⟨cn_getcommission_nonneg s1 p1 hp1.le,
      fun _ => cn_getcommission_mono s1 s2 p1 p2 hv⟩
  | US =>
    exact ⟨us_getcommission_nonneg s1 p1 hp1.le, fun hm => absurd rfl hm⟩

/-- C8 witness: nonnegativity and HK monotonicity from (200, 100) to
(400, 100). -/
theorem commission_nonneg_and_value_monotone_hk_cn_w :
    0 ≤ CommissionModel.HK.getcommission 200 100
    ∧ (CommissionModel.HK ≠ CommissionModel.US →
        CommissionModel.HK.getcommission 200 100
          ≤ CommissionModel.HK.getcommission 400 100) :=
  commission_nonneg_and_value_monotone_hk_cn CommissionModel.HK 200 400 100 100
    (by decide) (by norm_num) (by decide) (by norm_num) (by norm_num [tradeValue])

/-- C9: in the US model each component's floor branch excludes its cap
branch: below the per-share floor the commission component is exactly the
minimum (hence strictly above the never-applied cap whenever the cap is below
the minimum), and the trading-system and settlement-activity components
behave the same way. -/
theorem us_floor_cap_branches_exclusive (size : Int) (price : ℚ)
    (h1 : (size.natAbs : ℚ) * (49/10000) < 99/100)
    (h2 : tradeValue size price * (5/1000) < 99/100)
    (h3 : (size.natAbs : ℚ) * (5/1000) < 1)
    (h4 : (size.natAbs : ℚ) * (166/1000000) < 5/1000) :
    USCommission.commissionComponent USCommission.params size price = 99/100
    ∧ tradeValue size price * (5/1000)
        < USCommission.commissionComponent USCommission.params size price
    ∧ USCommission.tradingSystemFeeComponent USCommission.params size price = 1
    ∧ USCommission.settlementActivityFeeComponent USCommission.params size
        = 5/1000 := by
  have hc : USCommission.commissionComponent USCommission.params size price
      = 99/100 := by
    simp only [USCommission.commissionComponent, USCommission.params]
    split_ifs
    rfl
  have ht : USCommission.tradingSystemFeeComponent USCommission.params size price
      = 1 := by
    simp only [USCommission.tradingSystemFeeComponent, USCommission.params]
    split_ifs
    rfl
  have hsf : USCommission.settlementActivityFeeComponent USCommission.params size
      = 5/1000 := by
    simp only [USCommission.settlementActivityFeeComponent, USCommission.params]
    split_ifs
    rfl
  exact ⟨hc, by rw [hc]; exact h2, ht, hsf⟩

/-- C9 witness: size 1, price 0.01 — the floors apply and the commission
component 0.99 strictly exceeds the unapplied cap 0.00005. -/
theorem us_floor_cap_branches_exclusive_w :
    USCommission.commissionComponent USCommission.params 1 (1/100) = 99/100
    ∧ tradeValue 1 (1/100) * (5/1000)
        < USCommission.commissionComponent USCommission.params 1 (1/100)
    ∧ USCommission.tradingSystemFeeComponent USCommission.params 1 (1/100) = 1
    ∧ USCommission.settlementActivityFeeComponent USCommission.params 1
        = 5/1000 :=
  us_floor_cap_branches_exclusive 1 (1/100) (by norm_num)
    (by norm_num [tradeValue]) (by norm_num) (by norm_num)

/-- C10: the three record constructors accept exactly the runtime types
`datetime.date` and `str`: a `datetime.datetime` and a pandas `Timestamp`
raise the `ValueError`, and every accepted input is stored normalized as a
pandas timestamp in the `date` field. -/
theorem record_type_dispatch_exact (d : PyDate) (hh mm : Nat) (t : Timestamp)
    (s : String) (ts : Timestamp)
    (action signal_type signal_description : String) (shares : Int)
    (total_assets : ℚ)
    (hs : pdTimestampOfString s = some ts) :
    TradeRecord.init (.datetime d hh mm) action signal_type shares
        = Except.error (.typeError "date must be datetime.date or str")
    ∧ TradeRecord.init (.pdTimestamp t) action signal_type shares
        = Except.error (.typeError "date must be datetime.date or str")
    ∧ AssetRecord.init (.datetime d hh mm) total_assets
        = Except.error (.typeError "date must be datetime.date or str")
    ∧ AssetRecord.init (.pdTimestamp t) total_assets
        = Except.error (.typeError "date must be datetime.date or str")
    ∧ SignalRecord.init (.datetime d hh mm) signal_type signal_description
        = Except.error (.typeError "date must be datetime.date or str")
    ∧ SignalRecord.init (.pdTimestamp t) signal_type signal_description
        = Except.error (.typeError "date must be datetime.date or str")
    ∧ TradeRecord.init (.date d) action signal_type shares
        = Except.ok ⟨pdTimestampOfDate d, action, signal_type, shares⟩
    ∧ TradeRecord.init (.str s) action signal_type shares
        = Except.ok ⟨ts, action, signal_type, shares⟩
    ∧ AssetRecord.init (.date d) total_assets
        = Except.ok ⟨pdTimestampOfDate d, total_assets⟩
    ∧ AssetRecord.init (.str s) total_assets = Except.ok ⟨ts, total_assets⟩
    ∧ SignalRecord.init (.date d) signal_type signal_description
        = Except.ok ⟨pdTimestampOfDate d, signal_type, signal_description⟩
    ∧ SignalRecord.init (.str s) signal_type signal_description
        = Except.ok ⟨ts, signal_type, signal_description⟩ := by
  refine ⟨rfl, rfl, rfl, rfl, rfl, rfl, rfl, ?_, rfl, ?_, rfl, ?_⟩ <;>
    simp [TradeRecord.init, AssetRecord.init, SignalRecord.init, hs]

/-- C10 witness: the exact-type dispatch at the concrete date 2024-01-15 in
both representations. -/
theorem record_type_dispatch_exact_w :
    TradeRecord.init (.pdTimestamp ⟨2024, 1, 15⟩) "Buy" "sig" 100
        = Except.error (.typeError "date must be datetime.date or str")
    ∧ TradeRecord.init (.str "2024-01-15") "Buy" "sig" 100
        = Except.ok ⟨⟨2024, 1, 15⟩, "Buy", "sig", 100⟩ :=
  ⟨(record_type_dispatch_exact ⟨2024, 1, 15⟩ 0 0 ⟨2024, 1, 15⟩ "2024-01-15"
      ⟨2024, 1, 15⟩ "Buy" "sig" "desc" 100 5 (by decide)).2.1,
    (record_type_dispatch_exact ⟨2024, 1, 15⟩ 0 0 ⟨2024, 1, 15⟩ "2024-01-15"
      ⟨2024, 1, 15⟩ "Buy" "sig" "desc" 100 5 (by decide)).2.2.2.2.2.2.2.1⟩

end StockQuant
